import Mathlib

/-!
Shallow embedding of `src/PodValidator/main.go`.

The program is a single Go file with three cooperating pieces:
* `main` (lines 28-84): fetches a deployment and its pods once, then runs a
  bounded poll loop (`count := 6`) that re-checks `printDeploymentStatus`,
  sleeps two seconds between non-terminal attempts, and on the final failed
  attempt runs `printPodStatus` and calls `log.Fatalf` (non-zero exit).
* `printDeploymentStatus` (lines 86-93): true iff some deployment status
  condition has type "Available" and status "True".
* `printPodStatus` / `getPodlogs` (lines 95-174): per-container failure
  classification and a deduplicated, 10-capped scan of the log stream for
  lines containing "error" (case-insensitively) but not "datadog".

Machine integers play no role (the counters are small non-negative values),
so counts are `Nat`. External effects (readiness of the cluster over time,
secret lookups, log streams) are passed in as explicit parameters.
-/

namespace PodValidator

/-! ### String helpers

Go's `strings.Contains` is contiguous-substring containment (an empty
pattern always matches); `strings.ToLower` lower-cases each character.
Lean's `Char.toLower` agrees with Go on ASCII, which is all the fixed
patterns ("error", "datadog", "secret") need. -/

/-- Does `s` start with `pat`? (`pat` first, then the string.) -/
def startsWithChars : List Char → List Char → Bool
  | [], _ => true
  | _ :: _, [] => false
  | a :: pat, b :: s => a == b && startsWithChars pat s

/-- Contiguous-substring containment on character lists: Go's
`strings.Contains(s, pat)` with arguments `pat`, `s`. -/
def hasSubChars : List Char → List Char → Bool
  | pat, [] => pat.isEmpty
  | pat, c :: s => startsWithChars pat (c :: s) || hasSubChars pat s

/-- Go `strings.Contains(s, pat)` (case-sensitive). -/
def strContains (s pat : String) : Bool :=
  hasSubChars pat.data s.data

/-- Character list of Go `strings.ToLower(s)`. -/
def lowerChars (s : String) : List Char :=
  s.data.map Char.toLower

/-- `strings.Contains(strings.ToLower(line), "error")` (main.go line 122). -/
def lineHasError (s : String) : Bool :=
  hasSubChars "error".data (lowerChars s)

/-- `strings.Contains(strings.ToLower(line), "datadog")` (main.go line 122). -/
def lineHasDatadog (s : String) : Bool :=
  hasSubChars "datadog".data (lowerChars s)

/-- The filter of main.go line 122: the line mentions "error"
(case-insensitively) and does not mention "datadog" (case-insensitively). -/
def qualifies (s : String) : Bool :=
  lineHasError s && !lineHasDatadog s

/-! ### Deployment readiness (`printDeploymentStatus`, main.go lines 86-93) -/

/-- One entry of `deployment.Status.Conditions`. -/
structure DeploymentCondition where
  type : String
  status : String
deriving DecidableEq

/-- main.go lines 86-93: true iff some condition has `Type == "Available"`
and `Status == "True"`. The Go loop returns on the first match; `List.any`
is the same function. -/
def printDeploymentStatus (conds : List DeploymentCondition) : Bool :=
  conds.any fun c => c.type == "Available" && c.status == "True"

/-! ### The poll loop (main.go lines 67-83) -/

/-- Terminal outcome of the poll loop. -/
inductive Outcome where
  | success
  | failure
deriving DecidableEq

/-- Observable trace of one run of the poll loop: how many readiness checks
were evaluated, how many `time.Sleep` calls ran, how many times
`printPodStatus` (diagnostics) was invoked, the outcome, and the process
exit code (`log.Fatalf` exits with code 1; falling off `main` exits 0). -/
structure RunTrace where
  queries : Nat
  sleeps : Nat
  diags : Nat
  outcome : Outcome
  exitCode : Nat
deriving DecidableEq

/-- main.go lines 67-83, parameterized by the boolean the readiness check
would observe on each attempt (`q i` is the value seen on the `i`-th
iteration, 0-based) and by the remaining counter value. The Go loop is

  for count > 0 {
    if printDeploymentStatus(deployment) { ...; count = 0 }          -- success
    else if count == 1 { printPodStatus(...); log.Fatalf(...) }      -- failure
    else { println(warn); time.Sleep(2s); count = count - 1 }        -- retry
  }

Recursion is structural on `count`, which is exactly the Go counter
strictly counting down, so the loop always terminates. -/
def pollLoop (q : Nat → Bool) (attempt : Nat) : Nat → RunTrace
  | 0 => ⟨0, 0, 0, .success, 0⟩
  | 1 =>
    if q attempt then ⟨1, 0, 0, .success, 0⟩
    else ⟨1, 0, 1, .failure, 1⟩
  | c + 2 =>
    if q attempt then ⟨1, 0, 0, .success, 0⟩
    else
      let rest := pollLoop q (attempt + 1) (c + 1)
      ⟨rest.queries + 1, rest.sleeps + 1, rest.diags, rest.outcome, rest.exitCode⟩

/-- main.go line 67: `count := 6`. -/
def mainMaxAttempts : Nat := 6

/-- The loop as `main` actually runs it: the deployment is fetched once at
line 52 and never re-fetched, so every attempt re-evaluates
`printDeploymentStatus` on the same, cached condition list. -/
def mainPoll (conds : List DeploymentCondition) : RunTrace :=
  pollLoop (fun _ => printDeploymentStatus conds) 0 mainMaxAttempts

/-! ### The log scanner (`getPodlogs`, main.go lines 109-133) -/

/-- The read/filter/dedup loop of main.go lines 110-133, on the list of
lines the stream would deliver. `acc` holds the evidence collected so far,
most recent first (the Go code prints in insertion order; reversing `acc`
at the end restores that order). A line is kept when it passes the
`qualifies` filter and is not already in the seen-set; after the 10th kept
line the loop breaks, leaving the rest of the stream unread. The second
component is the unread remainder of the stream. -/
def scanStep : List String → List String → List String × List String
  | [], acc => (acc.reverse, [])
  | l :: ls, acc =>
    if qualifies l = true ∧ l ∉ acc then
      if acc.length + 1 ≥ 10 then ((l :: acc).reverse, ls)
      else scanStep ls (l :: acc)
    else scanStep ls acc

/-- The evidence set `getPodlogs` prints for a given stream of lines. -/
def scan (lines : List String) : List String :=
  (scanStep lines []).1

/-- The part of the stream the scan never reads. -/
def scanConsumedRest (lines : List String) : List String :=
  (scanStep lines []).2

/-- main.go lines 113-120 with read errors made explicit: each event is a
delivered line paired with a flag saying whether `ReadLine` also reported a
non-EOF error for it. The Go code prints the error message but has no
`continue`/`break`, so the line is processed and the loop keeps going
either way; the flag therefore never influences control flow. -/
def scanEventsStep : List (String × Bool) → List String → List String
  | [], acc => acc.reverse
  | (l, _) :: ls, acc =>
    if qualifies l = true ∧ l ∉ acc then
      if acc.length + 1 ≥ 10 then (l :: acc).reverse
      else scanEventsStep ls (l :: acc)
    else scanEventsStep ls acc

/-- Evidence collected from a stream of (line, read-error) events. -/
def scanEvents (evts : List (String × Bool)) : List String :=
  scanEventsStep evts []

/-- Result of one `getPodlogs` call. `req.Stream` failing leaves `podLogs`
a nil interface (main.go lines 104-107 print the error but do not return),
and the subsequent `reader.ReadLine()` dereferences the nil reader: a Go
runtime panic, modelled by `panicNilReader`. -/
inductive ScanResult where
  | ok (evidence : List String)
  | panicNilReader
deriving DecidableEq

/-- main.go lines 103-133: `stream = none` models `req.Stream` returning an
error (no stream); otherwise the scan loop runs over the stream's lines. -/
def getPodlogsRun (stream : Option (List String)) : ScanResult :=
  match stream with
  | none => .panicNilReader
  | some lines => .ok (scan lines)

/-! ### Container snapshots and classification (`printPodStatus`,
main.go lines 136-174) -/

/-- `container.State.Waiting` payload. -/
structure WaitingState where
  reason : String
  message : String
deriving DecidableEq

/-- `container.State.Terminated` payload (never inspected by the code). -/
structure TerminatedState where
  reason : String
  message : String
deriving DecidableEq

/-- One entry of `pod.Status.ContainerStatuses`: `running` is whether
`State.Running` is non-nil, `waiting`/`terminated` the optional pointers. -/
structure ContainerSnapshot where
  name : String
  ready : Bool
  running : Bool
  waiting : Option WaitingState
  terminated : Option TerminatedState
deriving DecidableEq

/-- The classification outcomes of the spec's ContainerStateClassifier. -/
inductive Classification where
  | HealthyRunning
  | KnownReason (reason message : String)
  | RequiresLogScan
deriving DecidableEq

/-- The classifier implicit in the branch structure of main.go lines
140-171, with the code's own condition polarity: the diagnose branch is
taken when `State.Running == nil || !Ready`. -/
def classify (c : ContainerSnapshot) : Classification :=
  if c.running = false ∨ c.ready = false then
    match c.waiting with
    | some w =>
      if w.reason = "ImagePullBackOff" ∨ w.reason = "ErrImagePull" then
        .KnownReason w.reason w.message
      else if w.reason = "CreateContainerConfigError" then
        .KnownReason w.reason w.message
      else .RequiresLogScan
    | none => .RequiresLogScan
  else .HealthyRunning

/-- The classification rules exactly as the specification words them
(spec §4.2, first match wins): Running with ready=true is HealthyRunning;
otherwise Waiting with reason ImagePullBackOff or ErrImagePull is
KnownReason; otherwise Waiting with reason CreateContainerConfigError is
KnownReason; every other snapshot is RequiresLogScan. Stated for the
refinement theorem comparing it with `classify`. -/
def classifySpecRules (c : ContainerSnapshot) : Classification :=
  if c.running = true ∧ c.ready = true then .HealthyRunning
  else
    match c.waiting with
    | some w =>
      if w.reason = "ImagePullBackOff" ∨ w.reason = "ErrImagePull" then
        .KnownReason w.reason w.message
      else if w.reason = "CreateContainerConfigError" then
        .KnownReason w.reason w.message
      else .RequiresLogScan
    | none => .RequiresLogScan

/-- What `printPodStatus` does for one container (main.go lines 140-171),
abstracting the printed text into a tag per branch. -/
inductive ContainerReport where
  | runningOk
  | imagePullSecretMissing (secretName : String)
  | imagePullSecretPresent (secretName : String)
  | panicIndexOutOfRange
  | configErrorSecretHint
  | configErrorConfigMapHint
  | logScan
deriving DecidableEq

/-- main.go lines 140-171 for one container. `secretFound name` models
`clientset.CoreV1().Secrets(namespace).Get(...)` succeeding;
`imagePullSecrets` is `pod.Spec.ImagePullSecrets` (names). Line 146 indexes
`ImagePullSecrets[0]` unconditionally, so an empty list is a Go runtime
panic (index out of range), modelled by `panicIndexOutOfRange`. -/
def reportContainer (secretFound : String → Bool) (imagePullSecrets : List String)
    (c : ContainerSnapshot) : ContainerReport :=
  if c.running = false ∨ c.ready = false then
    match c.waiting with
    | some w =>
      if w.reason = "ImagePullBackOff" ∨ w.reason = "ErrImagePull" then
        match imagePullSecrets with
        | [] => .panicIndexOutOfRange
        | s :: _ =>
          if secretFound s then .imagePullSecretPresent s
          else .imagePullSecretMissing s
      else if w.reason = "CreateContainerConfigError" then
        if strContains w.message "secret" then .configErrorSecretHint
        else .configErrorConfigMapHint
      else .logScan
    | none => .logScan
  else .runningOk

/-! ### Poll-loop lemmas -/

/-- Counting lemma for the poll loop: starting from any attempt index with
at least one attempt left, the number of readiness checks is at most the
counter, every check except the last is followed by exactly one sleep, and
so the sleeps number one less than the checks. -/
theorem pollLoop_counts (q : Nat → Bool) :
    ∀ count a : Nat, 1 ≤ count →
      (pollLoop q a count).queries ≤ count ∧
      (pollLoop q a count).sleeps + 1 = (pollLoop q a count).queries ∧
      (pollLoop q a count).sleeps ≤ count - 1
  | 0, _, h => absurd h (by decide)
  | 1, a, _ => by
    by_cases hq : q a = true <;> simp [pollLoop, hq]
  | c + 2, a, _ => by
    by_cases hq : q a = true
    · simp [pollLoop, hq]
    · have ih := pollLoop_counts q (c + 1) (a + 1) (by omega)
      simp only [pollLoop, hq, if_false, Bool.false_eq_true, if_neg] at *
      omega

/-- If the readiness value is true for the first time at offset `j` from
the current attempt, and at least `j + 1` attempts remain, the loop stops
there with Success: `j + 1` checks, `j` sleeps, no diagnostics, exit 0. -/
theorem pollLoop_first_ready (q : Nat → Bool) :
    ∀ count a j : Nat, j < count → q (a + j) = true →
      (∀ i, i < j → q (a + i) = false) →
      pollLoop q a count = ⟨j + 1, j, 0, .success, 0⟩
  | 0, _, j, hj, _, _ => absurd hj (by omega)
  | 1, a, j, hj, hq, _ => by
    have hj0 : j = 0 := by omega
    subst hj0
    simp only [Nat.add_zero] at hq
    simp [pollLoop, hq]
  | c + 2, a, j, hj, hq, hb => by
    match j with
    | 0 =>
      simp only [Nat.add_zero] at hq
      simp [pollLoop, hq]
    | j' + 1 =>
      have hqa : q a = false := by
        have := hb 0 (by omega)
        simpa using this
      have harg : a + 1 + j' = a + (j' + 1) := by omega
      have ih := pollLoop_first_ready q (c + 1) (a + 1) j' (by omega)
        (by rw [harg]; exact hq)
        (fun i hi => by
          have := hb (i + 1) (by omega)
          have harg2 : a + 1 + i = a + (i + 1) := by omega
          rw [harg2]; exact this)
      simp [pollLoop, hqa, ih]

/-- If the readiness value is false on all remaining attempts, the loop
exhausts the counter: `count` checks, `count - 1` sleeps, one diagnostics
invocation, Failure, exit 1. -/
theorem pollLoop_all_false (q : Nat → Bool) :
    ∀ count a : Nat, 1 ≤ count → (∀ i, i < count → q (a + i) = false) →
      pollLoop q a count = ⟨count, count - 1, 1, .failure, 1⟩
  | 0, _, h, _ => absurd h (by decide)
  | 1, a, _, hb => by
    have hqa : q a = false := by simpa using hb 0 (by omega)
    simp [pollLoop, hqa]
  | c + 2, a, _, hb => by
    have hqa : q a = false := by simpa using hb 0 (by omega)
    have ih := pollLoop_all_false q (c + 1) (a + 1) (by omega)
      (fun i hi => by
        have := hb (i + 1) (by omega)
        have harg : a + 1 + i = a + (i + 1) := by omega
        rw [harg]; exact this)
    simp [pollLoop, hqa, ih]

/-! ### Claims C1-C4 -/

/-- The deployment-condition history used for claim C1: not Available at
the initial fetch (attempt 0), Available with status True from the time of
attempt 1 onwards. -/
def c1History (i : Nat) : List DeploymentCondition :=
  if i = 0 then [] else [⟨"Available", "True"⟩]

/-- Claim C1 (code bug, evaluated at the failing input): `main` fetches the
deployment once (line 52) and the loop re-reads that cached value, so when
the deployment is not Available at fetch time but becomes Available before
attempt 2, the run still performs all 6 checks on the stale value and
fails, whereas a loop issuing a fresh external readiness query on every
attempt over the same history succeeds. The readiness value is therefore
not recomputed by a new external query on each attempt, contradicting the
claim. -/
theorem c1_readiness_query_is_cached :
    mainPoll (c1History 0) = ⟨6, 5, 1, .failure, 1⟩ ∧
    (pollLoop (fun i => printDeploymentStatus (c1History i)) 0 mainMaxAttempts).outcome
      = .success := by
  constructor
  · rfl
  · rfl

/-- Claim C2: for `maxAttempts = N ≥ 1` the loop performs at most `N`
readiness checks and at most `N - 1` sleeps, with exactly one sleep between
consecutive attempts (sleeps + 1 = checks); termination is intrinsic, since
`pollLoop` is structurally recursive on the counter, which starts at
`maxAttempts` and strictly counts down. -/
theorem c2_retry_budget (q : Nat → Bool) (N : Nat) (hN : 1 ≤ N) :
    (pollLoop q 0 N).queries ≤ N ∧
    (pollLoop q 0 N).sleeps + 1 = (pollLoop q 0 N).queries ∧
    (pollLoop q 0 N).sleeps ≤ N - 1 :=
  pollLoop_counts q N 0 hN

/-- Witness for C2 at `N = 3` with a never-ready environment. -/
theorem c2_retry_budget_witness :
    (pollLoop (fun _ => false) 0 3).queries ≤ 3 ∧
    (pollLoop (fun _ => false) 0 3).sleeps + 1 = (pollLoop (fun _ => false) 0 3).queries ∧
    (pollLoop (fun _ => false) 0 3).sleeps ≤ 3 - 1 :=
  c2_retry_budget (fun _ => false) 3 (by decide)

/-- Claim C3: if the readiness check is false on attempts `0..k-1` (0-based)
and true on attempt `k` with `k < N`, i.e. first true on the (k+1)-st
attempt in the claim's 1-based counting, the loop stops right there with
Success: exactly `k + 1` checks, `k` sleeps, no diagnostics, exit 0 — so no
further checks, no further sleeps, and diagnostics never runs. -/
theorem c3_success_stops_loop (q : Nat → Bool) (N k : Nat) (hk : k < N)
    (hq : q k = true) (hb : ∀ i, i < k → q i = false) :
    pollLoop q 0 N = ⟨k + 1, k, 0, .success, 0⟩ :=
  pollLoop_first_ready q N 0 k hk (by simpa using hq)
    (fun i hi => by simpa using hb i hi)

/-- Witness for C3: `N = 4`, readiness first true on 0-based attempt 2. -/
theorem c3_success_stops_loop_witness :
    pollLoop (fun i => 2 ≤ i) 0 4 = ⟨3, 2, 0, .success, 0⟩ :=
  c3_success_stops_loop (fun i => 2 ≤ i) 4 2 (by decide) (by decide)
    (fun i hi => by simp only [decide_eq_false_iff_not]; omega)

/-- Claim C4: if the readiness check is false on every one of the `N ≥ 1`
attempts, the loop exhausts the budget: `N` checks, `N - 1` sleeps, exactly
one diagnostics invocation (it happens in the `count == 1` branch, i.e. on
the final attempt, before `log.Fatalf` returns control), outcome Failure,
and a non-zero process exit code. -/
theorem c4_failure_diagnoses_once (q : Nat → Bool) (N : Nat) (hN : 1 ≤ N)
    (hb : ∀ i, i < N → q i = false) :
    pollLoop q 0 N = ⟨N, N - 1, 1, .failure, 1⟩ ∧ (pollLoop q 0 N).exitCode ≠ 0 := by
  have h := pollLoop_all_false q N 0 hN (fun i hi => by simpa using hb i hi)
  exact ⟨h, by rw [h]; simp⟩

/-- Witness for C4 at `N = 3` with a never-ready environment. -/
theorem c4_failure_diagnoses_once_witness :
    pollLoop (fun _ => false) 0 3 = ⟨3, 2, 1, .failure, 1⟩ ∧
    (pollLoop (fun _ => false) 0 3).exitCode ≠ 0 :=
  c4_failure_diagnoses_once (fun _ => false) 3 (by decide) (fun _ _ => rfl)

/-! ### Claims C5, C8, C10 -/

/-- Claim C5: the classifier is a total function (`classify` is a plain
Lean function on snapshots), it agrees pointwise with the rule list of the
claim taken in priority order (`classifySpecRules`), and identical
snapshots always classify identically. -/
theorem c5_classifier_total_deterministic :
    (∀ c : ContainerSnapshot, classify c = classifySpecRules c) ∧
    (∀ c₁ c₂ : ContainerSnapshot, c₁ = c₂ → classify c₁ = classify c₂) := by
  constructor
  · intro c
    rcases c with ⟨n, rd, rn, w, t⟩
    cases rd <;> cases rn <;> cases w <;>
      simp [classify, classifySpecRules]
  · intro c₁ c₂ h
    rw [h]

/-- A sample snapshot for the C5 witness. -/
def c5Snapshot : ContainerSnapshot :=
  ⟨"app", false, false, some ⟨"CrashLoopBackOff", "back-off 5m restarting"⟩, none⟩

/-- Witness for C5 at a concrete snapshot. -/
theorem c5_classifier_total_deterministic_witness :
    classify c5Snapshot = classifySpecRules c5Snapshot ∧
    classify c5Snapshot = classify c5Snapshot :=
  ⟨c5_classifier_total_deterministic.1 c5Snapshot,
   c5_classifier_total_deterministic.2 c5Snapshot c5Snapshot rfl⟩

/-- The failing input of claim C8: a container waiting in ImagePullBackOff
on a pod whose `spec.imagePullSecrets` list is empty. -/
def c8Snapshot : ContainerSnapshot :=
  ⟨"app", false, false, some ⟨"ImagePullBackOff", "Back-off pulling image"⟩, none⟩

/-- Claim C8 (code bug, evaluated at the failing input): the snapshot is
classified KnownReason ImagePullBackOff, and with zero image-pull-secret
references the diagnostics path hits the unconditional
`pod.Spec.ImagePullSecrets[0]` of main.go line 146 — a Go index-out-of-range
runtime panic that aborts the whole report — for every possible secret
probe, instead of flagging a configuration error. -/
theorem c8_empty_pull_secrets_panic :
    classify c8Snapshot = .KnownReason "ImagePullBackOff" "Back-off pulling image" ∧
    ∀ secretFound : String → Bool,
      reportContainer secretFound [] c8Snapshot = .panicIndexOutOfRange := by
  exact ⟨rfl, fun _ => rfl⟩

/-- Claim C10: with the container's state one-of (so `waiting = none` for a
Running, Terminated or state-less snapshot), any container that is not both
running and ready goes to the log scanner, and the running report happens
exactly for the conjunction running ∧ ready. -/
theorem c10_only_ready_running_reported_running (secretFound : String → Bool)
    (ips : List String) (c : ContainerSnapshot) :
    (c.waiting = none → ¬(c.running = true ∧ c.ready = true) →
      reportContainer secretFound ips c = .logScan) ∧
    (reportContainer secretFound ips c = .runningOk ↔
      (c.running = true ∧ c.ready = true)) := by
  rcases c with ⟨n, rd, rn, w, t⟩
  constructor
  · intro hw hnr
    cases w with
    | some wst => simp at hw
    | none => cases rn <;> cases rd <;> simp [reportContainer] at hnr ⊢
  · cases rn <;> cases rd <;> cases w <;> cases ips <;>
      simp only [reportContainer] <;> split_ifs <;> simp_all

/-- The snapshot of the C10 witness: state Running but ready=false. -/
def c10Snapshot : ContainerSnapshot := ⟨"app", false, true, none, none⟩

/-- Witness for C10: a Running-but-unready container is sent to the log
scanner and is not reported as running. -/
theorem c10_only_ready_running_reported_running_witness :
    reportContainer (fun _ => true) [] c10Snapshot = .logScan ∧
    (reportContainer (fun _ => true) [] c10Snapshot = .runningOk ↔
      (c10Snapshot.running = true ∧ c10Snapshot.ready = true)) :=
  ⟨(c10_only_ready_running_reported_running (fun _ => true) [] c10Snapshot).1
      rfl (by decide),
   (c10_only_ready_running_reported_running (fun _ => true) [] c10Snapshot).2⟩

/-! ### Scanner lemmas -/

/-- A line passing the filter does not mention "datadog". -/
theorem qualifies_no_datadog {l : String} (h : qualifies l = true) :
    lineHasDatadog l = false := by
  have h2 := (Bool.and_eq_true _ _).mp h
  simpa using h2.2

/-- The evidence never grows beyond 10 entries. -/
theorem scanStep_len : ∀ lines acc : List String, acc.length < 10 →
    ((scanStep lines acc).1).length ≤ 10
  | [], acc, h => by simp [scanStep]; omega
  | l :: ls, acc, h => by
    by_cases hq : qualifies l = true ∧ l ∉ acc
    · by_cases hc : acc.length + 1 ≥ 10
      · simp only [scanStep]
        rw [if_pos hq, if_pos hc]
        simp
        omega
      · have ih := scanStep_len ls (l :: acc) (by simp; omega)
        simp only [scanStep]
        rw [if_pos hq, if_neg hc]
        exact ih
    · have ih := scanStep_len ls acc h
      simp only [scanStep]
      rw [if_neg hq]
      exact ih

/-- The evidence never holds duplicates. -/
theorem scanStep_nodup : ∀ lines acc : List String, acc.Nodup →
    ((scanStep lines acc).1).Nodup
  | [], acc, h => by simpa [scanStep] using h
  | l :: ls, acc, h => by
    by_cases hq : qualifies l = true ∧ l ∉ acc
    · by_cases hc : acc.length + 1 ≥ 10
      · simp only [scanStep]
        rw [if_pos hq, if_pos hc]
        exact List.nodup_reverse.mpr (List.nodup_cons.mpr ⟨hq.2, h⟩)
      · have ih := scanStep_nodup ls (l :: acc) (by simp [List.nodup_cons, hq.2, h])
        simp only [scanStep]
        rw [if_pos hq, if_neg hc]
        exact ih
    · have ih := scanStep_nodup ls acc h
      simp only [scanStep]
      rw [if_neg hq]
      exact ih

/-- No "datadog" line ever enters the evidence. -/
theorem scanStep_no_datadog : ∀ lines acc : List String,
    (∀ x ∈ acc, lineHasDatadog x = false) →
    ∀ x ∈ (scanStep lines acc).1, lineHasDatadog x = false
  | [], acc, h, x, hx => by
    simp only [scanStep, List.mem_reverse] at hx
    exact h x hx
  | l :: ls, acc, h, x, hx => by
    by_cases hq : qualifies l = true ∧ l ∉ acc
    · by_cases hc : acc.length + 1 ≥ 10
      · simp only [scanStep] at hx
        rw [if_pos hq, if_pos hc] at hx
        simp only [List.mem_reverse, List.mem_cons] at hx
        rcases hx with rfl | hx2
        · exact qualifies_no_datadog hq.1
        · exact h x hx2
      · have hacc : ∀ y ∈ l :: acc, lineHasDatadog y = false := by
          intro y hy
          rcases List.mem_cons.mp hy with rfl | hy2
          · exact qualifies_no_datadog hq.1
          · exact h y hy2
        simp only [scanStep] at hx
        rw [if_pos hq, if_neg hc] at hx
        exact scanStep_no_datadog ls (l :: acc) hacc x hx
    · simp only [scanStep] at hx
      rw [if_neg hq] at hx
      exact scanStep_no_datadog ls acc h x hx

/-- Lines already collected stay collected. -/
theorem scanStep_mem_acc : ∀ (lines acc : List String) (x : String), x ∈ acc →
    x ∈ (scanStep lines acc).1
  | [], acc, x, hx => by simpa [scanStep] using hx
  | l :: ls, acc, x, hx => by
    by_cases hq : qualifies l = true ∧ l ∉ acc
    · by_cases hc : acc.length + 1 ≥ 10
      · simp only [scanStep]
        rw [if_pos hq, if_pos hc]
        exact List.mem_reverse.mpr (List.mem_cons_of_mem l hx)
      · have ih := scanStep_mem_acc ls (l :: acc) x (List.mem_cons_of_mem l hx)
        simp only [scanStep]
        rw [if_pos hq, if_neg hc]
        exact ih
    · have ih := scanStep_mem_acc ls acc x hx
      simp only [scanStep]
      rw [if_neg hq]
      exact ih

/-- When the cap was never reached, every qualifying line of the stream is
in the evidence. -/
theorem scanStep_complete : ∀ (lines acc : List String) (x : String),
    ((scanStep lines acc).1).length < 10 → x ∈ lines → qualifies x = true →
    x ∈ (scanStep lines acc).1
  | [], _, x, _, hx, _ => absurd hx (List.not_mem_nil x)
  | l :: ls, acc, x, hlen, hx, hqx => by
    by_cases hq : qualifies l = true ∧ l ∉ acc
    · by_cases hc : acc.length + 1 ≥ 10
      · exfalso
        simp only [scanStep] at hlen
        rw [if_pos hq, if_pos hc] at hlen
        simp at hlen
        omega
      · simp only [scanStep] at hlen ⊢
        rw [if_pos hq, if_neg hc] at hlen ⊢
        rcases List.mem_cons.mp hx with hx1 | hx2
        · rw [hx1]
          exact scanStep_mem_acc ls (l :: acc) l (List.mem_cons_self l acc)
        · exact scanStep_complete ls (l :: acc) x hlen hx2 hqx
    · simp only [scanStep] at hlen ⊢
      rw [if_neg hq] at hlen ⊢
      rcases List.mem_cons.mp hx with hx1 | hx2
      · have hmem : l ∈ acc := by
          by_contra hno
          exact hq ⟨hx1 ▸ hqx, hno⟩
        rw [hx1]
        exact scanStep_mem_acc ls acc l hmem
      · exact scanStep_complete ls acc x hlen hx2 hqx

/-- On a fresh-line stream with at least `10 - acc.length` lines, all
qualifying, all new and pairwise distinct, the scan takes exactly enough
lines to fill the cap and leaves the rest unread. -/
theorem scanStep_all_new : ∀ lines acc : List String, acc.length < 10 →
    10 ≤ acc.length + lines.length →
    (∀ l ∈ lines, qualifies l = true) → (∀ l ∈ lines, l ∉ acc) → lines.Nodup →
    scanStep lines acc =
      (acc.reverse ++ lines.take (10 - acc.length), lines.drop (10 - acc.length))
  | [], acc, h1, h2, _, _, _ => by
    simp at h2
    omega
  | l :: ls, acc, h1, h2, hq, hn, hd => by
    have hql : qualifies l = true := hq l (by simp)
    have hnl : l ∉ acc := hn l (by simp)
    by_cases hc : acc.length + 1 ≥ 10
    · have h10 : 10 - acc.length = 1 := by omega
      simp only [scanStep]
      rw [if_pos ⟨hql, hnl⟩, if_pos hc, h10]
      have ht : (l :: ls).take 1 = [l] := rfl
      have hdr : (l :: ls).drop 1 = ls := rfl
      rw [ht, hdr, List.reverse_cons]
    · have ih := scanStep_all_new ls (l :: acc)
        (by simp; omega)
        (by simp at h2 ⊢; omega)
        (fun y hy => hq y (List.mem_cons_of_mem l hy))
        (fun y hy => by
          have hlnotin : l ∉ ls := (List.nodup_cons.mp hd).1
          have hy2 : y ∉ acc := hn y (List.mem_cons_of_mem l hy)
          simp only [List.mem_cons, not_or]
          exact ⟨fun hyl => hlnotin (hyl ▸ hy), hy2⟩)
        ((List.nodup_cons.mp hd).2)
      simp only [scanStep]
      rw [if_pos ⟨hql, hnl⟩, if_neg hc, ih]
      obtain ⟨m, hm⟩ : ∃ m, 10 - acc.length = m + 1 := ⟨9 - acc.length, by omega⟩
      have hm2 : 10 - (l :: acc).length = m := by simp; omega
      rw [hm, hm2]
      simp [List.reverse_cons, List.take_succ_cons, List.drop_succ_cons,
        List.append_assoc]

/-- A stream of at least 10 fresh, distinct, qualifying lines yields
exactly the first 10 in order, leaving the rest unread. -/
theorem scan_first_ten (lines : List String) (h15 : lines.length = 15)
    (hd : lines.Nodup) (hq : ∀ l ∈ lines, qualifies l = true) :
    scan lines = lines.take 10 ∧ scanConsumedRest lines = lines.drop 10 := by
  have h := scanStep_all_new lines [] (by simp) (by simp [h15]) hq (by simp) hd
  constructor
  · show (scanStep lines []).1 = _
    rw [h]
    simp
  · show (scanStep lines []).2 = _
    rw [h]
    simp

/-- The events of a stream whose reads all error (non-EOF) still feed the
same filter, since main.go lines 114-120 print the error and fall through
to process the line. -/
theorem scanEventsStep_eq : ∀ (evts : List (String × Bool)) (acc : List String),
    scanEventsStep evts acc = (scanStep (evts.map Prod.fst) acc).1
  | [], acc => by simp [scanEventsStep, scanStep]
  | (l, e) :: ls, acc => by
    by_cases hq : qualifies l = true ∧ l ∉ acc
    · by_cases hc : acc.length + 1 ≥ 10
      · simp only [scanEventsStep, scanStep, List.map_cons, if_pos hq, if_pos hc]
      · have ih := scanEventsStep_eq ls (l :: acc)
        simp only [scanEventsStep, scanStep, List.map_cons, if_pos hq, if_neg hc]
        exact ih
    · have ih := scanEventsStep_eq ls acc
      simp only [scanEventsStep, scanStep, List.map_cons, if_neg hq]
      exact ih

/-! ### Claims C6, C7, C9 -/

/-- Claim C6: at every step of the incremental scan — that is, from any
intermediate accumulator that is still below the cap, duplicate-free and
datadog-free, and in particular for the whole run `scan` starting from the
empty accumulator — the evidence has at most 10 entries, no duplicates, and
no line mentioning "datadog" case-insensitively (even if it also mentions
"error", since the conjunction of main.go line 122 already rejects it). -/
theorem c6_scan_invariants (lines acc : List String) (h1 : acc.length < 10)
    (h2 : acc.Nodup) (h3 : ∀ x ∈ acc, lineHasDatadog x = false) :
    (((scanStep lines acc).1).length ≤ 10 ∧ ((scanStep lines acc).1).Nodup ∧
      ∀ x ∈ (scanStep lines acc).1, lineHasDatadog x = false) ∧
    ((scan lines).length ≤ 10 ∧ (scan lines).Nodup ∧
      ∀ x ∈ scan lines, lineHasDatadog x = false) :=
  ⟨⟨scanStep_len lines acc h1, scanStep_nodup lines acc h2,
      scanStep_no_datadog lines acc h3⟩,
    scanStep_len lines [] (by simp), scanStep_nodup lines [] (by simp),
    scanStep_no_datadog lines [] (by simp)⟩

/-- Witness stream for C6: a qualifying line, a datadog line that also says
error, and a duplicate. -/
def c6Lines : List String := ["fatal error: db down", "Datadog error tracer", "fatal error: db down"]

/-- Witness for C6 at a concrete stream and the empty accumulator. -/
theorem c6_scan_invariants_witness :
    (((scanStep c6Lines []).1).length ≤ 10 ∧ ((scanStep c6Lines []).1).Nodup ∧
      ∀ x ∈ (scanStep c6Lines []).1, lineHasDatadog x = false) ∧
    ((scan c6Lines).length ≤ 10 ∧ (scan c6Lines).Nodup ∧
      ∀ x ∈ scan c6Lines, lineHasDatadog x = false) :=
  c6_scan_invariants c6Lines [] (by decide) (by decide) (by decide)

/-- Claim C7: (1) a stream of 15 distinct lines, all mentioning "error"
case-insensitively and none "datadog", yields exactly its first 10 lines in
stream order, with the remaining 5 never read; (2) any line in the evidence
appears there exactly once, so a repeated identical qualifying line is kept
once; (3) whenever the cap was not reached the evidence is also complete:
every qualifying stream line — a repeated one included — did enter it. -/
theorem c7_first_ten_and_dedup :
    (∀ lines : List String, lines.length = 15 → lines.Nodup →
      (∀ l ∈ lines, lineHasError l = true ∧ lineHasDatadog l = false) →
      scan lines = lines.take 10 ∧ scanConsumedRest lines = lines.drop 10) ∧
    (∀ (lines : List String) (x : String), x ∈ scan lines →
      (scan lines).count x = 1) ∧
    (∀ (lines : List String) (x : String), (scan lines).length < 10 →
      x ∈ lines → qualifies x = true → x ∈ scan lines) := by
  refine ⟨?_, ?_, ?_⟩
  · intro lines h15 hd hq
    exact scan_first_ten lines h15 hd (fun l hl => by
      have h := hq l hl
      simp [qualifies, h.1, h.2])
  · intro lines x hx
    exact List.count_eq_one_of_mem (scanStep_nodup lines [] (by simp)) hx
  · intro lines x h1 h2 h3
    exact scanStep_complete lines [] x h1 h2 h3

/-- Witness stream for C7: fifteen distinct error lines. -/
def c7Lines : List String :=
  ["error 01", "error 02", "error 03", "error 04", "error 05",
   "error 06", "error 07", "error 08", "error 09", "error 10",
   "error 11", "error 12", "error 13", "error 14", "error 15"]

/-- Witness for C7: the concrete 15-line stream keeps the first 10 lines
and leaves the last 5 unread. -/
theorem c7_first_ten_and_dedup_witness :
    scan c7Lines = c7Lines.take 10 ∧ scanConsumedRest c7Lines = c7Lines.drop 10 :=
  c7_first_ten_and_dedup.1 c7Lines (by decide) (by decide) (by decide)

/-- Claim C9 (code bug, evaluated at the failing input): when the log
stream cannot be opened, main.go lines 104-107 print the error but do not
return, so `reader.ReadLine()` dereferences the nil stream and the run
panics — the result is not the empty evidence the claim promises, nor any
evidence at all. Non-EOF read errors, by contrast, really are non-fatal:
they never change the collected evidence (third conjunct). -/
theorem c9_open_failure_panics :
    getPodlogsRun none = .panicNilReader ∧
    (∀ evidence : List String, getPodlogsRun none ≠ .ok evidence) ∧
    (∀ evts : List (String × Bool), scanEvents evts = scan (evts.map Prod.fst)) :=
  ⟨rfl, fun _ h => ScanResult.noConfusion h, fun evts => scanEventsStep_eq evts []⟩

end PodValidator
